import Mathlib

/-!
Verification development for the "sett" AI image-expander application.

The definitions below are a shallow embedding of the TypeScript source:
* canvas sizing, contain-fit scaling and centering from `App.tsx`
  (`handleGenerateClick`);
* the OAuth token cache from `googleDriveAuth` (`getAccessToken`,
  `isAuthenticated`, `signOut`, `requestAccessToken`);
* Drive entry classification and listing from `geminiService.ts`
  (`isImageFile`, `isFolder`, `listFiles`);
* breadcrumb navigation from `GoogleDriveBrowser.tsx`
  (`handleFolderClick`, `handleBreadcrumbClick`, `handleFileClick`,
  `loadFiles`), including an event model for in-flight listing requests.

Machine numbers are modelled as `ℚ`/`ℤ`/`ℕ`; `Math.round` is Mathlib's
`round` (round half up, identical on the nonnegative values that occur);
JavaScript `String.prototype.startsWith` is prefix testing on the
character list of the string; fallible async calls take their outcome as
an explicit `Except` argument.
-/

namespace Sett

/-! ## Data model -/

/-- Drive entry, mirroring the `DriveFile` interface of `geminiService.ts`. -/
structure DriveFile where
  id : String
  name : String
  mimeType : String
  thumbnailLink : Option String := none
  webViewLink : Option String := none
  webContentLink : Option String := none
  size : Option String := none
  modifiedTime : Option String := none
  iconLink : Option String := none
  deriving DecidableEq

/-- One breadcrumb entry, mirroring `BreadcrumbItem` of `GoogleDriveBrowser.tsx`. -/
structure BreadcrumbItem where
  id : String
  name : String
  deriving DecidableEq

/-! ## Image geometry compositor (`App.tsx`, `handleGenerateClick`) -/

/-- Canvas sizing from `App.tsx`: `if (targetW >= targetH) { width = M;
height = Math.round(M * targetH / targetW) } else { height = M;
width = Math.round(M * targetW / targetH) }`, generalised over the
`MAX_DIMENSION` bound `M`. Returns `(canvasWidth, canvasHeight)`. -/
def canvasDims (W H M : ℕ) : ℤ × ℤ :=
  if H ≤ W then ((M : ℤ), round ((M * H : ℚ) / (W : ℚ)))
  else (round ((M * W : ℚ) / (H : ℚ)), (M : ℤ))

/-- The `MAX_DIMENSION` constant of `App.tsx`. -/
def MAX_DIMENSION : ℕ := 1024

/-- Contain-fit scale from `App.tsx`: `Math.min(canvas.width / img.width,
canvas.height / img.height)`. -/
def fitScale (cw ch sw sh : ℚ) : ℚ :=
  min (cw / sw) (ch / sh)

/-- Embeds `scaledWidth = img.width * ratio` from `App.tsx`. -/
def scaledWidth (cw ch sw sh : ℚ) : ℚ :=
  sw * fitScale cw ch sw sh

/-- Embeds `scaledHeight = img.height * ratio` from `App.tsx`. -/
def scaledHeight (cw ch sw sh : ℚ) : ℚ :=
  sh * fitScale cw ch sw sh

/-- Embeds `x = (canvas.width - scaledWidth) / 2` from `App.tsx`. -/
def drawX (cw ch sw sh : ℚ) : ℚ :=
  (cw - scaledWidth cw ch sw sh) / 2

/-- Embeds `y = (canvas.height - scaledHeight) / 2` from `App.tsx`. -/
def drawY (cw ch sw sh : ℚ) : ℚ :=
  (ch - scaledHeight cw ch sw sh) / 2

/-! ## Drive auth session (`googleDriveAuth`) -/

/-- The token cache of `GoogleDriveAuthService`: fields `accessToken` and
`tokenExpiry` (both `null`able). -/
structure AuthState where
  accessToken : Option String
  tokenExpiry : Option ℤ
  deriving DecidableEq

/-- Embeds `isAuthenticated()`: `!!(this.accessToken && this.tokenExpiry &&
Date.now() < this.tokenExpiry)`.  `now` is the current clock reading. -/
def isAuthenticated (s : AuthState) (now : ℤ) : Bool :=
  match s.accessToken, s.tokenExpiry with
  | some _, some e => decide (now < e)
  | _, _ => false

/-- Embeds `requestAccessToken()`, the interactive flow.  Its outcome is the
`fresh` argument: on success the callback stores the token and
`Date.now() + expires_in * 1000`, and resolves with the token; on error it
rejects and leaves the cache untouched. -/
def requestAccessToken (now : ℤ) (fresh : Except String (String × ℤ))
    (s : AuthState) : Except String String × AuthState :=
  match fresh with
  | Except.ok (tok, expiresIn) =>
      (Except.ok tok, ⟨some tok, some (now + expiresIn * 1000)⟩)
  | Except.error e => (Except.error e, s)

/-- Embeds `getAccessToken()`: return the cached token if present and unexpired,
otherwise delegate to `requestAccessToken`. -/
def getAccessToken (now : ℤ) (fresh : Except String (String × ℤ))
    (s : AuthState) : Except String String × AuthState :=
  match s.accessToken, s.tokenExpiry with
  | some tok, some e =>
      if now < e then (Except.ok tok, s) else requestAccessToken now fresh s
  | _, _ => requestAccessToken now fresh s

/-- Embeds `signOut()`: clears both the token and the expiry. -/
def signOut (_ : AuthState) : AuthState := ⟨none, none⟩

/-- The operations a caller can perform on the session cache. -/
inductive AuthOp where
  | getTok (now : ℤ) (fresh : Except String (String × ℤ))
  | checkAuth (now : ℤ)
  | doSignOut

/-- State transition of one session operation (`isAuthenticated` is pure). -/
def authStep (s : AuthState) : AuthOp → AuthState
  | AuthOp.getTok now fresh => (getAccessToken now fresh s).2
  | AuthOp.checkAuth _ => s
  | AuthOp.doSignOut => signOut s

/-- Operations that occur before the expiry instant `E` and are not a
sign-out. -/
def keepsSession (E : ℤ) : AuthOp → Prop
  | AuthOp.getTok now _ => now < E
  | AuthOp.checkAuth _ => True
  | AuthOp.doSignOut => False

/-! ## Drive entry classification and listing (`geminiService.ts`) -/

/-- The well-known Drive folder marker (`FOLDER_MIME_TYPE`). -/
def FOLDER_MIME_TYPE : String := "application/vnd.google-apps.folder"

/-- Embeds `isImageFile`: `file.mimeType.startsWith('image/')`, modelled as a
prefix test on the character list. -/
def isImageFile (f : DriveFile) : Bool :=
  "image/".data.isPrefixOf f.mimeType.data

/-- Embeds `isFolder`: `file.mimeType === FOLDER_MIME_TYPE`. -/
def isFolder (f : DriveFile) : Bool :=
  f.mimeType == FOLDER_MIME_TYPE

/-- The JSON body of a Drive listing response (`DriveApiResponse`); the
`files` field may be absent. -/
structure DriveApiBody where
  files : Option (List DriveFile)
  nextPageToken : Option String
  deriving DecidableEq

/-- The HTTP response a listing fetch resolves with. -/
structure HttpResponse where
  ok : Bool
  statusText : String
  body : DriveApiBody
  deriving DecidableEq

/-- Embeds `listFiles`: throws on a non-ok response, otherwise returns
`data.files || []` and the page token. -/
def listFiles (resp : HttpResponse) :
    Except String (List DriveFile × Option String) :=
  if resp.ok then
    Except.ok (resp.body.files.getD [], resp.body.nextPageToken)
  else
    Except.error ("Failed to fetch files: " ++ resp.statusText)

/-! ## Drive navigation (`GoogleDriveBrowser.tsx`) -/

/-- The navigation part of the browser state: `currentFolderId` and
`breadcrumb`. -/
structure NavState where
  currentFolderId : String
  breadcrumb : List BreadcrumbItem
  deriving DecidableEq

/-- Initial navigation state: `'root'` and `[{ id: 'root', name: 'My Drive' }]`. -/
def navInit : NavState :=
  ⟨"root", [⟨"root", "My Drive"⟩]⟩

/-- Navigation effect of `handleFolderClick`: set the current folder and
append to the breadcrumb (both happen before `loadFiles` is invoked). -/
def handleFolderClickNav (folder : DriveFile) (s : NavState) : NavState :=
  ⟨folder.id, s.breadcrumb ++ [⟨folder.id, folder.name⟩]⟩

/-- Navigation effect of `handleBreadcrumbClick(index)`: truncate the
breadcrumb to `index + 1` entries and set the current folder to the last
kept entry.  (`slice` clamps an oversized index; on the non-empty
breadcrumbs that actually occur the truncation is never empty, so the
`getD` fallback for an empty truncation is never taken.) -/
def handleBreadcrumbClickNav (index : ℕ) (s : NavState) : NavState :=
  let nb := s.breadcrumb.take (index + 1)
  ⟨((nb.getLast?).map BreadcrumbItem.id).getD s.currentFolderId, nb⟩

/-- A navigation action of one browsing session. -/
inductive NavAction where
  | enter (folder : DriveFile)
  | jump (index : ℕ)

/-- State transition of one navigation action. -/
def navStep (s : NavState) : NavAction → NavState
  | NavAction.enter folder => handleFolderClickNav folder s
  | NavAction.jump index => handleBreadcrumbClickNav index s

/-- The navigation invariant claimed by the spec: non-empty breadcrumb,
root sentinel first, last entry's id equal to the current folder id. -/
def navInvariant (s : NavState) : Prop :=
  s.breadcrumb ≠ [] ∧
  s.breadcrumb.head? = some ⟨"root", "My Drive"⟩ ∧
  (s.breadcrumb.getLast?).map BreadcrumbItem.id = some s.currentFolderId

/-- Browser state including the displayed file list and the error banner. -/
structure BrowserUIState where
  nav : NavState
  files : List DriveFile
  error : Option String
  deriving DecidableEq

/-- Initial browser state. -/
def browserUIInit : BrowserUIState := ⟨navInit, [], none⟩

/-- Effect of `loadFiles` once its fetch settles: on success `setFiles`
(and the error is the `null` set at the start of the call); on failure
`setError`, leaving the file list as it was. -/
def loadFilesResult (res : Except String (List DriveFile))
    (s : BrowserUIState) : BrowserUIState :=
  match res with
  | Except.ok fs => ⟨s.nav, fs, none⟩
  | Except.error e => ⟨s.nav, s.files, some e⟩

/-- Embeds `handleFolderClick` followed by the settling of the `loadFiles` fetch
it triggers: the navigation update happens first, unconditionally. -/
def handleFolderClickUI (folder : DriveFile)
    (res : Except String (List DriveFile)) (s : BrowserUIState) :
    BrowserUIState :=
  loadFilesResult res ⟨handleFolderClickNav folder s.nav, s.files, s.error⟩

/-- Browser state with in-flight listing requests: `pendingReqs` records,
in issue order, the folder id each outstanding `listFiles` call was made
for; `displayedFrom` records which folder the currently displayed file
list was fetched for (`none` before any listing settled). -/
structure AsyncBrowserState where
  nav : NavState
  pendingReqs : List String
  displayedFrom : Option String
  deriving DecidableEq

/-- Initial asynchronous browser state. -/
def asyncInit : AsyncBrowserState := ⟨navInit, [], none⟩

/-- An event of the browsing session: a navigation action (which issues a
listing request) or the arrival of the response to the `k`-th outstanding
request.  Responses may arrive in any order. -/
inductive BrowseEv where
  | clickFolder (folder : DriveFile)
  | jumpCrumb (index : ℕ)
  | completeReq (k : ℕ)

/-- Event semantics of `GoogleDriveBrowser`: navigation actions update the
navigation state and start a fetch; when any fetch settles successfully,
its `setFiles` is applied unconditionally — the source has no generation
counter or staleness check. -/
def browseStep (s : AsyncBrowserState) : BrowseEv → AsyncBrowserState
  | BrowseEv.clickFolder f =>
      ⟨handleFolderClickNav f s.nav, s.pendingReqs ++ [f.id], s.displayedFrom⟩
  | BrowseEv.jumpCrumb i =>
      let n := handleBreadcrumbClickNav i s.nav
      ⟨n, s.pendingReqs ++ [n.currentFolderId], s.displayedFrom⟩
  | BrowseEv.completeReq k =>
      match s.pendingReqs[k]? with
      | some fid => ⟨s.nav, s.pendingReqs.eraseIdx k, some fid⟩
      | none => s

/-- Embeds `handleFileClick`: folders are entered, images are handed to
`onSelectFile`, anything else does nothing.  Returns the new navigation
state and the selection, if any. -/
def handleFileClick (file : DriveFile) (s : NavState) :
    NavState × Option DriveFile :=
  if isFolder file then (handleFolderClickNav file s, none)
  else if isImageFile file then (s, some file)
  else (s, none)

/-! ## Concrete sample entries -/

/-- A sample folder entry. -/
def photosFolder : DriveFile :=
  { id := "f1", name := "Photos", mimeType := FOLDER_MIME_TYPE }

/-- A second sample folder entry. -/
def folderA : DriveFile :=
  { id := "a", name := "A", mimeType := FOLDER_MIME_TYPE }

/-- A third sample folder entry. -/
def folderB : DriveFile :=
  { id := "b", name := "B", mimeType := FOLDER_MIME_TYPE }

/-- A sample image entry. -/
def samplePng : DriveFile :=
  { id := "p1", name := "pic.png", mimeType := "image/png" }

/-- A sample entry that is neither folder nor image. -/
def samplePdf : DriveFile :=
  { id := "d1", name := "doc.pdf", mimeType := "application/pdf" }

/-! ## Helper lemmas -/

/-- Monotonicity of `round` on `ℚ`. -/
theorem round_mono_q {x y : ℚ} (h : x ≤ y) : round x ≤ round y := by
  rw [round_eq, round_eq]
  exact Int.floor_le_floor (by linarith)

/-! ## Claims -/

/-- C1: for every aspect ratio with positive integer terms `W:H` and every
positive integer bound `M`, the canvas is `(M, round (M * H / W))` when
`W ≥ H` and `(round (M * W / H), M)` otherwise; equivalently, the longer
canvas side equals `M` exactly and the shorter side equals
`round (M * min W H / max W H)`. -/
theorem canvasDims_spec (W H M : ℕ) (hW : 0 < W) (hH : 0 < H) (hM : 0 < M) :
    (H ≤ W → canvasDims W H M = ((M : ℤ), round ((M * H : ℚ) / (W : ℚ)))) ∧
    (W < H → canvasDims W H M = (round ((M * W : ℚ) / (H : ℚ)), (M : ℤ))) ∧
    max (canvasDims W H M).1 (canvasDims W H M).2 = (M : ℤ) ∧
    min (canvasDims W H M).1 (canvasDims W H M).2 =
      round (((M : ℚ) * ((min W H : ℕ) : ℚ)) / ((max W H : ℕ) : ℚ)) := by
  by_cases hc : H ≤ W
  · have h1 : canvasDims W H M = ((M : ℤ), round ((M * H : ℚ) / (W : ℚ))) := by
      simp [canvasDims, hc]
    have hW' : (0 : ℚ) < (W : ℚ) := by exact_mod_cast hW
    have hHWq : (H : ℚ) ≤ (W : ℚ) := by exact_mod_cast hc
    have hMq : (0 : ℚ) ≤ (M : ℚ) := by positivity
    have hle : (M : ℚ) * (H : ℚ) / (W : ℚ) ≤ (M : ℚ) := by
      rw [div_le_iff₀ hW']
      nlinarith
    have hr : round ((M * H : ℚ) / (W : ℚ)) ≤ (M : ℤ) := by
      have h2 := round_mono_q hle
      simpa using h2
    refine ⟨fun _ => h1, fun hlt => absurd hlt (not_lt.mpr hc), ?_, ?_⟩
    · rw [h1]
      exact max_eq_left hr
    · rw [h1]
      have hmin : min W H = H := min_eq_right hc
      have hmax : max W H = W := max_eq_left hc
      rw [hmin, hmax]
      exact min_eq_right hr
  · push_neg at hc
    have h1 : canvasDims W H M = (round ((M * W : ℚ) / (H : ℚ)), (M : ℤ)) := by
      simp [canvasDims, not_le.mpr hc]
    have hH' : (0 : ℚ) < (H : ℚ) := by exact_mod_cast hH
    have hWHq : (W : ℚ) ≤ (H : ℚ) := by exact_mod_cast hc.le
    have hle : (M : ℚ) * (W : ℚ) / (H : ℚ) ≤ (M : ℚ) := by
      rw [div_le_iff₀ hH']
      have hMq : (0 : ℚ) ≤ (M : ℚ) := by positivity
      nlinarith
    have hr : round ((M * W : ℚ) / (H : ℚ)) ≤ (M : ℤ) := by
      have h2 := round_mono_q hle
      simpa using h2
    refine ⟨fun hle2 => absurd hc (not_lt.mpr hle2), fun _ => h1, ?_, ?_⟩
    · rw [h1]
      exact max_eq_right hr
    · rw [h1]
      have hmin : min W H = W := min_eq_left hc.le
      have hmax : max W H = H := max_eq_right hc.le
      rw [hmin, hmax]
      exact min_eq_left hr

/-- C1 witness: at aspect ratio 16:9 with bound 1024 the longer canvas
side is exactly 1024. -/
theorem canvasDims_spec_witness :
    max (canvasDims 16 9 1024).1 (canvasDims 16 9 1024).2 = (1024 : ℤ) :=
  (canvasDims_spec 16 9 1024 (by decide) (by decide) (by decide)).2.2.1

/-- C2: for every canvas and every source with positive dimensions, the
scale is `min (cw / sw) (ch / sh)`, the scaled bounding box is contained
in the canvas, and it is centered; in particular for the 16:9 / 1024 /
800×800 scenario the canvas is 1024×576, the scale 0.72, the scaled box
576×576 at (224, 0). -/
theorem containFit_spec (cw ch sw sh : ℚ) (hsw : 0 < sw) (hsh : 0 < sh) :
    fitScale cw ch sw sh = min (cw / sw) (ch / sh) ∧
    drawX cw ch sw sh = (cw - scaledWidth cw ch sw sh) / 2 ∧
    drawY cw ch sw sh = (ch - scaledHeight cw ch sw sh) / 2 ∧
    0 ≤ drawX cw ch sw sh ∧
    drawX cw ch sw sh + scaledWidth cw ch sw sh ≤ cw ∧
    0 ≤ drawY cw ch sw sh ∧
    drawY cw ch sw sh + scaledHeight cw ch sw sh ≤ ch ∧
    (canvasDims 16 9 1024 = ((1024 : ℤ), (576 : ℤ)) ∧
      fitScale 1024 576 800 800 = 72 / 100 ∧
      scaledWidth 1024 576 800 800 = 576 ∧
      scaledHeight 1024 576 800 800 = 576 ∧
      drawX 1024 576 800 800 = 224 ∧
      drawY 1024 576 800 800 = 0) := by
  have hsW : scaledWidth cw ch sw sh ≤ cw := by
    unfold scaledWidth fitScale
    have h1 : min (cw / sw) (ch / sh) ≤ cw / sw := min_le_left _ _
    have h2 : sw * min (cw / sw) (ch / sh) ≤ sw * (cw / sw) :=
      mul_le_mul_of_nonneg_left h1 hsw.le
    have h3 : sw * (cw / sw) = cw := by
      field_simp
    linarith
  have hsH : scaledHeight cw ch sw sh ≤ ch := by
    unfold scaledHeight fitScale
    have h1 : min (cw / sw) (ch / sh) ≤ ch / sh := min_le_right _ _
    have h2 : sh * min (cw / sw) (ch / sh) ≤ sh * (ch / sh) :=
      mul_le_mul_of_nonneg_left h1 hsh.le
    have h3 : sh * (ch / sh) = ch := by
      field_simp
    linarith
  have hcan : canvasDims 16 9 1024 = ((1024 : ℤ), (576 : ℤ)) := by
    norm_num [canvasDims, round_eq, Prod.ext_iff]
  have hfs : fitScale 1024 576 800 800 = 72 / 100 := by
    unfold fitScale
    rw [min_eq_right (by norm_num : (576 : ℚ) / 800 ≤ 1024 / 800)]
    norm_num
  have hsw576 : scaledWidth 1024 576 800 800 = 576 := by
    unfold scaledWidth
    rw [hfs]
    norm_num
  have hsh576 : scaledHeight 1024 576 800 800 = 576 := by
    unfold scaledHeight
    rw [hfs]
    norm_num
  have hdx : drawX 1024 576 800 800 = 224 := by
    unfold drawX
    rw [hsw576]
    norm_num
  have hdy : drawY 1024 576 800 800 = 0 := by
    unfold drawY
    rw [hsh576]
    norm_num
  refine ⟨rfl, rfl, rfl, ?_, ?_, ?_, ?_, hcan, hfs, hsw576, hsh576, hdx, hdy⟩
  · unfold drawX
    linarith
  · unfold drawX
    linarith
  · unfold drawY
    linarith
  · unfold drawY
    linarith

/-- C2 witness: in the 16:9 / 1024 / 800×800 scenario the scaled image is
drawn at x-offset 224. -/
theorem containFit_spec_witness : drawX 1024 576 800 800 = 224 :=
  (containFit_spec 1024 576 800 800 (by norm_num) (by norm_num)).2.2.2.2.2.2.2.2.2.2.2.1

/-- C3: contrary to the claim, `handleFolderClick` installs the new
current folder and breadcrumb before `loadFiles` runs, so when the
triggered listing fails the navigation state differs from its value
before the action: entering folder `f1` from the initial state with a
failing listing leaves `currentFolderId = "f1"`, not `"root"`. -/
theorem nav_changed_on_failed_listing :
    (handleFolderClickUI photosFolder (Except.error "Failed to load files")
        browserUIInit).nav ≠ browserUIInit.nav ∧
    (handleFolderClickUI photosFolder (Except.error "Failed to load files")
        browserUIInit).nav.currentFolderId = "f1" ∧
    browserUIInit.nav.currentFolderId = "root" ∧
    (handleFolderClickUI photosFolder (Except.error "Failed to load files")
        browserUIInit).error = some "Failed to load files" := by
  refine ⟨by decide, rfl, rfl, rfl⟩

/-- The event trace for C4: enter folder `a`, then enter folder `b`
before `a`'s listing has settled, then `a`'s response arrives last. -/
def staleTrace : List BrowseEv :=
  [BrowseEv.clickFolder folderA, BrowseEv.clickFolder folderB,
    BrowseEv.completeReq 0]

/-- C4: contrary to the claim, a stale listing result is not discarded:
after entering folder `a`, then folder `b`, and then receiving the
response of the listing issued for `a`, the displayed file list is the
one fetched for `a` while `currentFolderId` is `b`. -/
theorem stale_listing_displayed :
    (List.foldl browseStep asyncInit staleTrace).displayedFrom = some "a" ∧
    (List.foldl browseStep asyncInit staleTrace).nav.currentFolderId = "b" ∧
    (List.foldl browseStep asyncInit staleTrace).displayedFrom ≠
      some (List.foldl browseStep asyncInit staleTrace).nav.currentFolderId := by
  refine ⟨rfl, rfl, by decide⟩

/-- One navigation action preserves the navigation invariant. -/
theorem navInvariant_step (s : NavState) (a : NavAction)
    (hs : navInvariant s) : navInvariant (navStep s a) := by
  obtain ⟨hne, hhead, hlast⟩ := hs
  cases a with
  | enter folder =>
      refine ⟨by simp [navStep, handleFolderClickNav], ?_, ?_⟩
      · cases hbc : s.breadcrumb with
        | nil => exact absurd hbc hne
        | cons x t =>
            rw [hbc] at hhead
            simp at hhead
            simp [navStep, handleFolderClickNav, hbc, hhead]
      · simp [navStep, handleFolderClickNav, List.getLast?_concat]
  | jump index =>
      cases hbc : s.breadcrumb with
      | nil => exact absurd hbc hne
      | cons x t =>
          rw [hbc] at hhead
          simp at hhead
          have htake : (s.breadcrumb.take (index + 1)) = x :: t.take index := by
            simp [hbc]
          have hne2 : x :: t.take index ≠ [] := by simp
          obtain ⟨y, hy⟩ : ∃ y, (x :: t.take index).getLast? = some y := by
            cases hg : (x :: t.take index).getLast? with
            | some y => exact ⟨y, rfl⟩
            | none =>
                rw [List.getLast?_eq_none_iff] at hg
                exact absurd hg hne2
          refine ⟨?_, ?_, ?_⟩
          · simp [navStep, handleBreadcrumbClickNav, htake]
          · simp [navStep, handleBreadcrumbClickNav, htake, hhead]
          · simp [navStep, handleBreadcrumbClickNav, htake, hy]

/-- Any action sequence from an invariant-satisfying state keeps the
navigation invariant. -/
theorem navInvariant_foldl (s : NavState) (hs : navInvariant s)
    (acts : List NavAction) : navInvariant (List.foldl navStep s acts) := by
  induction acts generalizing s with
  | nil => exact hs
  | cons a as ih => exact ih _ (navInvariant_step s a hs)

/-- C5: after any finite sequence of `enterFolder` / `jumpToBreadcrumb`
actions from the initial state, the breadcrumb is non-empty, starts with
the root sentinel, and its last entry's id equals `currentFolderId`. -/
theorem navInvariant_holds (acts : List NavAction) :
    navInvariant (List.foldl navStep navInit acts) := by
  refine navInvariant_foldl navInit ⟨by simp [navInit], ?_, ?_⟩ acts
  · simp [navInit]
  · simp [navInit]

/-- C5 witness: the invariant after entering a folder and jumping back to
the root breadcrumb entry. -/
theorem navInvariant_holds_witness :
    navInvariant (List.foldl navStep navInit
      [NavAction.enter photosFolder, NavAction.jump 0]) :=
  navInvariant_holds [NavAction.enter photosFolder, NavAction.jump 0]

/-- A successful `getAccessToken` leaves a cached token and an expiry. -/
theorem getAccessToken_ok_token (now : ℤ) (fresh : Except String (String × ℤ))
    (s0 s1 : AuthState) (tok : String)
    (h : getAccessToken now fresh s0 = (Except.ok tok, s1)) :
    s1.accessToken = some tok ∧ ∃ E : ℤ, s1.tokenExpiry = some E := by
  have hreq : ∀ s' : AuthState,
      requestAccessToken now fresh s' = (Except.ok tok, s1) →
      s1.accessToken = some tok ∧ ∃ E : ℤ, s1.tokenExpiry = some E := by
    intro s' hr
    rcases fresh with e | ⟨t, ei⟩
    · simp [requestAccessToken] at hr
    · simp [requestAccessToken] at hr
      obtain ⟨h1, h2⟩ := hr
      rw [← h2]
      exact ⟨by rw [h1], _, rfl⟩
  rcases s0 with ⟨a0, e0⟩
  rcases a0 with _ | t0
  · exact hreq _ (by simpa [getAccessToken] using h)
  · rcases e0 with _ | x0
    · exact hreq _ (by simpa [getAccessToken] using h)
    · by_cases hn : now < x0
      · simp [getAccessToken, hn] at h
        obtain ⟨h1, h2⟩ := h
        rw [← h2]
        exact ⟨by rw [h1], _, rfl⟩
      · exact hreq _ (by simpa [getAccessToken, hn] using h)

/-- C6: once `getAccessToken` succeeds at time `T` with a token expiring
at `E`, `isAuthenticated` is true at every time strictly between `T` and
`E`; any sequence of operations issued before `E` that does not sign out
leaves the session state (hence the stored expiry) unchanged; and the
only operation that stores a changed expiry instant is a fresh token
issuance. -/
theorem session_monotonic (T : ℤ) (fresh0 : Except String (String × ℤ))
    (s0 s : AuthState) (tok : String) (E : ℤ)
    (hsucc : getAccessToken T fresh0 s0 = (Except.ok tok, s))
    (hE : s.tokenExpiry = some E) :
    (∀ t : ℤ, T < t → t < E → isAuthenticated s t = true) ∧
    (∀ ops : List AuthOp, (∀ op ∈ ops, keepsSession E op) →
        List.foldl authStep s ops = s) ∧
    (∀ s' : AuthState, ∀ op : AuthOp, ∀ e' : ℤ,
        (authStep s' op).tokenExpiry = some e' →
        (authStep s' op).tokenExpiry ≠ s'.tokenExpiry →
        ∃ now newTok expiresIn,
          op = AuthOp.getTok now (Except.ok (newTok, expiresIn)) ∧
          e' = now + expiresIn * 1000) := by
  obtain ⟨htok, E2, hE2⟩ := getAccessToken_ok_token T fresh0 s0 s tok hsucc
  have hEeq : E2 = E := by
    rw [hE2] at hE
    injection hE with h
  subst hEeq
  rcases s with ⟨sa, se⟩
  have h1 : sa = some tok := htok
  have h2 : se = some E2 := hE2
  subst h1
  subst h2
  refine ⟨?_, ?_, ?_⟩
  · intro t _ ht
    simp [isAuthenticated, ht]
  · have hfix : ∀ op, keepsSession E2 op →
        authStep ⟨some tok, some E2⟩ op = ⟨some tok, some E2⟩ := by
      intro op hop
      cases op with
      | getTok now fresh =>
          have hn : now < E2 := hop
          simp [authStep, getAccessToken, hn]
      | checkAuth now => rfl
      | doSignOut => cases hop
    intro ops hops
    induction ops with
    | nil => rfl
    | cons op rest ih =>
        have h1 := hfix op (hops op (by simp))
        rw [List.foldl_cons, h1]
        exact ih (fun o ho => hops o (by simp [ho]))
  · intro s' op e' hsome hne
    cases op with
    | checkAuth now => exact absurd rfl hne
    | doSignOut => simp [authStep, signOut] at hsome
    | getTok now fresh =>
        have key : ∀ s'' : AuthState,
            (requestAccessToken now fresh s'').2.tokenExpiry = some e' →
            (requestAccessToken now fresh s'').2.tokenExpiry ≠
              s''.tokenExpiry →
            ∃ n newTok expiresIn,
              AuthOp.getTok now fresh =
                AuthOp.getTok n (Except.ok (newTok, expiresIn)) ∧
              e' = n + expiresIn * 1000 := by
          intro s'' hs1 hs2
          rcases fresh with e | ⟨t, ei⟩
          · exact absurd rfl hs2
          · simp [requestAccessToken] at hs1
            exact ⟨now, t, ei, rfl, hs1.symm⟩
        rcases s' with ⟨a', x'⟩
        rcases a' with _ | t' <;> rcases x' with _ | x0
        · have hred : authStep ⟨none, none⟩ (AuthOp.getTok now fresh) =
              (requestAccessToken now fresh ⟨none, none⟩).2 := by
            simp [authStep, getAccessToken]
          rw [hred] at hsome hne
          exact key _ hsome hne
        · have hred : authStep ⟨none, some x0⟩ (AuthOp.getTok now fresh) =
              (requestAccessToken now fresh ⟨none, some x0⟩).2 := by
            simp [authStep, getAccessToken]
          rw [hred] at hsome hne
          exact key _ hsome hne
        · have hred : authStep ⟨some t', none⟩ (AuthOp.getTok now fresh) =
              (requestAccessToken now fresh ⟨some t', none⟩).2 := by
            simp [authStep, getAccessToken]
          rw [hred] at hsome hne
          exact key _ hsome hne
        · by_cases hn : now < x0
          · have hred : authStep ⟨some t', some x0⟩ (AuthOp.getTok now fresh) =
                ⟨some t', some x0⟩ := by
              simp [authStep, getAccessToken, hn]
            rw [hred] at hne
            exact absurd rfl hne
          · have hred : authStep ⟨some t', some x0⟩ (AuthOp.getTok now fresh) =
                (requestAccessToken now fresh ⟨some t', some x0⟩).2 := by
              simp [authStep, getAccessToken, hn]
            rw [hred] at hsome hne
            exact key _ hsome hne

/-- C6 witness: after a fresh issuance at time 0 with `expires_in = 3600`
the session is authenticated at time 1800000 (half way to expiry). -/
theorem session_monotonic_witness :
    isAuthenticated ⟨some "tok", some 3600000⟩ 1800000 = true :=
  (session_monotonic 0 (Except.ok ("tok", 3600)) ⟨none, none⟩
      ⟨some "tok", some 3600000⟩ "tok" 3600000 rfl rfl).1
    1800000 (by decide) (by decide)

/-- C7: `getAccessToken` returns the cached token, without consulting the
interactive flow, exactly when a token is cached and `now` is strictly
before its expiry; otherwise it delegates to `requestAccessToken` and, on
a successful issuance, returns and stores the fresh token; and the cached
token counts as valid iff it is present and `now < expiry`. -/
theorem getAccessToken_spec (now : ℤ) (s : AuthState) :
    (∀ tok e, s.accessToken = some tok → s.tokenExpiry = some e → now < e →
        ∀ fresh, getAccessToken now fresh s = (Except.ok tok, s)) ∧
    (isAuthenticated s now = false →
        ∀ fresh, getAccessToken now fresh s = requestAccessToken now fresh s) ∧
    (∀ newTok expiresIn, isAuthenticated s now = false →
        getAccessToken now (Except.ok (newTok, expiresIn)) s =
          (Except.ok newTok, ⟨some newTok, some (now + expiresIn * 1000)⟩)) ∧
    (isAuthenticated s now = true ↔
        ∃ tok e, s.accessToken = some tok ∧ s.tokenExpiry = some e ∧ now < e) := by
  rcases s with ⟨a, e0⟩
  have hdeleg : isAuthenticated ⟨a, e0⟩ now = false →
      ∀ fresh, getAccessToken now fresh ⟨a, e0⟩ =
        requestAccessToken now fresh ⟨a, e0⟩ := by
    intro hfalse fresh
    rcases a with _ | t
    · simp [getAccessToken]
    · rcases e0 with _ | x
      · simp [getAccessToken]
      · simp [isAuthenticated] at hfalse
        simp [getAccessToken, hfalse]
  refine ⟨?_, hdeleg, ?_, ?_⟩
  · intro tok e htok he hlt fresh
    simp only at htok he
    subst htok
    subst he
    simp [getAccessToken, hlt]
  · intro newTok expiresIn hfalse
    rw [hdeleg hfalse (Except.ok (newTok, expiresIn))]
    rfl
  · rcases a with _ | t
    · simp [isAuthenticated]
    · rcases e0 with _ | x
      · simp [isAuthenticated]
      · simp [isAuthenticated]

/-- C7 witness: with a cached token valid until 10 and the clock at 5,
`getAccessToken` returns the cached token and leaves the state unchanged
even though the interactive flow would fail. -/
theorem getAccessToken_spec_witness :
    getAccessToken 5 (Except.error "boom") ⟨some "t", some 10⟩ =
      (Except.ok "t", ⟨some "t", some 10⟩) :=
  (getAccessToken_spec 5 ⟨some "t", some 10⟩).1 "t" 10 rfl rfl (by decide)
    (Except.error "boom")

/-- C8: an entry is a folder iff its mime type equals the Drive folder
marker, and an image iff its mime type begins with `image/`; hence the
folder marker is never an image, and `image/png` always is. -/
theorem classify_spec (f : DriveFile) :
    (isFolder f = true ↔ f.mimeType = FOLDER_MIME_TYPE) ∧
    (isImageFile f = true ↔
        ∃ rest : List Char, "image/".data ++ rest = f.mimeType.data) ∧
    (f.mimeType = FOLDER_MIME_TYPE → isFolder f = true ∧ isImageFile f = false) ∧
    (f.mimeType = "image/png" → isImageFile f = true) := by
  refine ⟨?_, ?_, ?_, ?_⟩
  · simp [isFolder]
  · rw [isImageFile, List.isPrefixOf_iff_prefix]
    exact Iff.rfl
  · intro hmt
    refine ⟨by simp [isFolder, hmt], ?_⟩
    rw [isImageFile, hmt]
    decide
  · intro hmt
    rw [isImageFile, hmt]
    decide

/-- C8 witness: the sample `image/png` entry is classified as an image. -/
theorem classify_spec_witness : isImageFile samplePng = true :=
  (classify_spec samplePng).2.2.2 rfl

/-- C9: `handleFileClick` enters folders exactly as `handleFolderClick`
does, returns image entries as the final selection without touching the
navigation state, and is a no-op on everything else; an image entry is
never simultaneously a folder. -/
theorem handleFileClick_spec (file : DriveFile) (s : NavState) :
    (isFolder file = true →
        handleFileClick file s = (handleFolderClickNav file s, none) ∧
        handleFolderClickNav file s = navStep s (NavAction.enter file)) ∧
    (isImageFile file = true →
        isFolder file = false ∧ handleFileClick file s = (s, some file)) ∧
    (isFolder file = false → isImageFile file = false →
        handleFileClick file s = (s, none)) := by
  refine ⟨?_, ?_, ?_⟩
  · intro hf
    exact ⟨by simp [handleFileClick, hf], rfl⟩
  · intro hi
    have hnf : isFolder file = false := by
      rw [isFolder, beq_eq_false_iff_ne]
      intro hEq
      rw [isImageFile, hEq] at hi
      exact absurd hi (by decide)
    exact ⟨hnf, by simp [handleFileClick, hnf, hi]⟩
  · intro hnf hni
    simp [handleFileClick, hnf, hni]

/-- C9 witness: clicking the sample `image/png` entry leaves navigation
at the initial state and selects the entry. -/
theorem handleFileClick_spec_witness :
    handleFileClick samplePng navInit = (navInit, some samplePng) :=
  ((handleFileClick_spec samplePng navInit).2.1 (by decide)).2

/-- C10: a successful (HTTP-ok) listing response whose JSON body lacks a
`files` field yields an empty file list, and a listing call fails exactly
when the HTTP response is not ok. -/
theorem listFiles_spec (resp : HttpResponse) :
    (resp.ok = true → resp.body.files = none →
        listFiles resp = Except.ok ([], resp.body.nextPageToken)) ∧
    ((∃ e, listFiles resp = Except.error e) ↔ resp.ok = false) := by
  constructor
  · intro hok hnone
    simp [listFiles, hok, hnone]
  · constructor
    · rintro ⟨e, he⟩
      rcases hb : resp.ok
      · rfl
      · simp [listFiles, hb] at he
    · intro hfalse
      exact ⟨"Failed to fetch files: " ++ resp.statusText,
        by simp [listFiles, hfalse]⟩

/-- C10 witness: an ok response with no `files` field yields the empty
list. -/
theorem listFiles_spec_witness :
    listFiles ⟨true, "OK", ⟨none, none⟩⟩ = Except.ok ([], none) :=
  (listFiles_spec ⟨true, "OK", ⟨none, none⟩⟩).1 rfl rfl

end Sett
